import Mathlib

/-!
Verification development for the snitchbot repository.

The embedding covers:
* `src/snitchbot/lib/network.py` — URL scheme handling (`URL.ensure_scheme`,
  with the scheme-detection rule of `urllib.parse.urlsplit`);
* `src/snitchbot/tasks.py` (identical to the `TaskManager` class in
  `src/snitchbot/__main__.py`) — the per-user task registry;
* `SiteWatcher._do_watch_site` in `src/snitchbot/__main__.py` — the polling
  loop, modelled as a fuel-bounded iteration over an environment that gives
  each probe outcome and the points at which cancellation is delivered;
* `SiteWatcher.handle_get_site` in `src/snitchbot/__main__.py` — the handler
  that derives a registry key from the raw message text.
-/

namespace Snitchbot

/-! ### URL utilities (`src/snitchbot/lib/network.py`) -/

/-- First character of a URI scheme per `urllib.parse.urlsplit`: an ASCII
letter (Python checks `url[0].isascii() and url[0].isalpha()`). -/
def isSchemeStart (c : Char) : Bool :=
  ('a' ≤ c && c ≤ 'z') || ('A' ≤ c && c ≤ 'Z')

/-- Subsequent scheme characters per `urllib.parse`: `scheme_chars` is ASCII
letters, digits, and the characters `+`, `-`, `.`. -/
def isSchemeChar (c : Char) : Bool :=
  isSchemeStart c || c.isDigit || c == '+' || c == '-' || c == '.'

/-- The characters strictly before the first `:` of the string, or `none`
when the string has no colon (models `url.find(':')`). -/
def takeUntilColon : List Char → Option (List Char)
  | [] => none
  | c :: rest => if c = ':' then some [] else (takeUntilColon rest).map (c :: ·)

/-- Whether `urllib.parse.urlparse(url).scheme` is nonempty: there is a colon
at some index `i > 0`, the first character is an ASCII letter, and the
characters up to the colon are all scheme characters. -/
def hasScheme (url : List Char) : Bool :=
  match takeUntilColon url with
  | some (c :: cs) => isSchemeStart c && cs.all isSchemeChar
  | _ => false

/-- `URL.ensure_scheme` from `src/snitchbot/lib/network.py`: if
`urlparse(url).scheme` is empty, return `f'{default_scheme}://{url}'`,
otherwise return `url` unchanged. -/
def ensure_scheme (url : String) (default_scheme : String := "https") : String :=
  if hasScheme url.toList then url else default_scheme ++ "://" ++ url

/-- A syntactically valid scheme name: nonempty, starting with an ASCII
letter, all characters scheme characters. This is the shape under which
`urlsplit` recognises a prepended scheme again. -/
def isValidSchemeName (s : String) : Bool :=
  match s.toList with
  | [] => false
  | c :: cs => isSchemeStart c && cs.all isSchemeChar

/-- Python `str.strip()`: remove whitespace from both ends of the string. -/
def pyStrip (s : String) : String :=
  ⟨((s.toList.dropWhile Char.isWhitespace).reverse.dropWhile Char.isWhitespace).reverse⟩

/-- Python `str.lower()` restricted to ASCII case mapping. -/
def pyLower (s : String) : String :=
  ⟨s.toList.map Char.toLower⟩

/-! ### Association-list model of Python `dict`

`src/snitchbot/tasks.py` stores tasks in nested `dict`s. A `dict` is
modelled as an association list with unique keys (every reachable registry
state has unique keys, since all insertions go through `dictInsert`).
`dictPop` removes every binding of the key, which on unique-key lists
coincides with `dict.pop(key, None)`. -/

/-- `d[k]` lookup / `k in d` membership: first binding of the key. -/
def dictGet {α β : Type} [DecidableEq α] : List (α × β) → α → Option β
  | [], _ => none
  | (a, b) :: rest, x => if a = x then some b else dictGet rest x

/-- `d[k] = v`: overwrite the binding if the key is present, else append. -/
def dictInsert {α β : Type} [DecidableEq α] : List (α × β) → α → β → List (α × β)
  | [], x, v => [(x, v)]
  | (a, b) :: rest, x, v => if a = x then (x, v) :: rest else (a, b) :: dictInsert rest x v

/-- `d.pop(k, None)` (the removal part): drop the bindings of the key. -/
def dictPop {α β : Type} [DecidableEq α] (l : List (α × β)) (x : α) : List (α × β) :=
  l.filter (fun p => decide (p.1 ≠ x))

/-! ### Task registry (`TaskManager` in `src/snitchbot/tasks.py`) -/

/-- Status of an `asyncio.Task` as far as the registry claims need it.
`task.cancel()` only requests cooperative cancellation (`cancelRequested`);
the terminal statuses are reached later, at which point the done callback
installed by `submit` fires. -/
inductive TaskStatus : Type where
  | running
  | cancelRequested
  | succeeded
  | cancelled
deriving DecidableEq, Repr

/-- The registry state together with the surrounding `asyncio` world:
`tasks` is `TaskManager.tasks` (user → key → task handle, handles named by
`Nat` ids), `nextId` the id `asyncio.create_task` gives the next task, and
`status` the status of every created task. -/
structure World (Key : Type) where
  tasks : List (String × List (Key × Nat))
  nextId : Nat
  status : List (Nat × TaskStatus)
deriving Repr, DecidableEq

/-- `TaskManager._user_tasks`: if the user is absent from the outer dict,
insert an empty inner dict for it; return the updated world and the user's
inner dict. -/
def user_tasks {Key : Type} [DecidableEq Key] (w : World Key) (user : String) :
    World Key × List (Key × Nat) :=
  match dictGet w.tasks user with
  | some inner => (w, inner)
  | none => ({ w with tasks := dictInsert w.tasks user [] }, [])

/-- `TaskManager._clear_task`: `self._user_tasks(user).pop(url, None)`. -/
def clear_task {Key : Type} [DecidableEq Key] (w : World Key) (user : String) (key : Key) :
    World Key :=
  let p := user_tasks w user
  { p.1 with tasks := dictInsert p.1.tasks user (dictPop p.2 key) }

/-- `TaskManager.get_tasks`: `self._user_tasks(user).keys()`. -/
def get_tasks {Key : Type} [DecidableEq Key] (w : World Key) (user : String) :
    World Key × List Key :=
  let p := user_tasks w user
  (p.1, p.2.map Prod.fst)

/-- `TaskManager.has_tasks`: `len(self._user_tasks(user)) > 0`. -/
def has_tasks {Key : Type} [DecidableEq Key] (w : World Key) (user : String) :
    World Key × Bool :=
  let p := user_tasks w user
  (p.1, decide (0 < p.2.length))

/-- `TaskManager.has_task`: `key in self._user_tasks(user)`. -/
def has_task {Key : Type} [DecidableEq Key] (w : World Key) (user : String) (key : Key) :
    World Key × Bool :=
  let p := user_tasks w user
  (p.1, (dictGet p.2 key).isSome)

/-- `TaskManager.submit`: `task = asyncio.create_task(work)` (a fresh running
task), `user_tasks[key] = task`, and
`task.add_done_callback(lambda *_: self._clear_task(user, key))`. The
returned `Nat` is the id of the created task; the done callback itself is
modelled by `finish` below. -/
def submit {Key : Type} [DecidableEq Key] (w : World Key) (user : String) (key : Key) :
    World Key × Nat :=
  let p := user_tasks w user
  let tid := p.1.nextId
  ({ p.1 with
      tasks := dictInsert p.1.tasks user (dictInsert p.2 key tid)
      nextId := tid + 1
      status := dictInsert p.1.status tid TaskStatus.running }, tid)

/-- `TaskManager.cancel`: `task = self._user_tasks(user).pop(key, None)`;
`if task is not None: task.cancel()`. -/
def cancel {Key : Type} [DecidableEq Key] (w : World Key) (user : String) (key : Key) :
    World Key :=
  let p := user_tasks w user
  let w2 := { p.1 with tasks := dictInsert p.1.tasks user (dictPop p.2 key) }
  match dictGet p.2 key with
  | some tid => { w2 with status := dictInsert w2.status tid TaskStatus.cancelRequested }
  | none => w2

/-- The task `tid`, submitted under `(user, key)`, reaches the terminal
status `s`: its done callback (installed by `submit`) then runs
`TaskManager._clear_task user key`. -/
def finish {Key : Type} [DecidableEq Key] (w : World Key) (user : String) (key : Key)
    (tid : Nat) (s : TaskStatus) : World Key :=
  clear_task { w with status := dictInsert w.status tid s } user key

/-- View: the task handle recorded under `(user, key)`, without the
side effect of `_user_tasks` (pure observation of the registry content). -/
def lookupTask {Key : Type} [DecidableEq Key] (w : World Key) (user : String) (key : Key) :
    Option Nat :=
  match dictGet w.tasks user with
  | none => none
  | some inner => dictGet inner key

/-- View: the recorded status of a task id. -/
def taskStatus {Key : Type} (w : World Key) (tid : Nat) : Option TaskStatus :=
  dictGet w.status tid

/-! ### Polling engine (`SiteWatcher._do_watch_site` in `src/snitchbot/__main__.py`)

```
while True:
    try:
        async with aiohttp.ClientSession() as session:
            async with session.get(site, verify_ssl=False) as response:
                if response.ok:
                    await on_success
                    return
    except Exception as error:
        print(f"Exception while accessing {site}: {error}")
    await asyncio.sleep(15)
```

The loop is driven by an environment: `probe n` is the outcome of the
`n`-th `session.get` (a response with `response.ok` true, a response with
it false, or a raised transport error), `onSuccessRaises` says whether the
first `await on_success` raises, and `cancelAtSleep n` says whether
cancellation is delivered during the sleep that follows probe `n`.
`asyncio.CancelledError` derives from `BaseException`, so the
`except Exception` handler does not catch it and the coroutine ends
cancelled at that sleep. Awaiting the `on_success` coroutine a second time
raises (`RuntimeError: cannot reuse already awaited coroutine`); like a
first-await exception it is caught by the `except Exception` handler. -/

/-- Outcome of one `session.get(site, verify_ssl=False)` probe. -/
inductive ProbeResult : Type where
  | ok
  | notOk
  | err
deriving DecidableEq, Repr

/-- State of a watch coroutine. -/
inductive WatchState : Type where
  | pending
  | succeeded
  | cancelled
deriving DecidableEq, Repr

/-- Observable trace of a (fuel-bounded) run of the polling loop:
its state, the number of probes issued, and the number of times
`await on_success` was attempted. -/
structure WatchTrace : Type where
  state : WatchState
  probes : Nat
  awaitsOfSuccess : Nat
deriving DecidableEq, Repr

/-- Fuel-bounded run of `_do_watch_site`: `fuel` bounds the number of loop
iterations still observed, `n` counts probes already issued, `calls` counts
prior awaits of `on_success`. Each iteration issues probe `n`; on `ok` with
a first, non-raising await the loop returns (`succeeded`); every other case
falls through to `await asyncio.sleep(15)`, where a delivered cancellation
ends the coroutine and otherwise the loop repeats. -/
def watchLoop (probe : Nat → ProbeResult) (onSuccessRaises : Bool)
    (cancelAtSleep : Nat → Bool) : Nat → Nat → Nat → WatchTrace
  | 0, n, calls => ⟨WatchState.pending, n, calls⟩
  | fuel + 1, n, calls =>
    match probe n with
    | ProbeResult.ok =>
      if calls = 0 && !onSuccessRaises then
        ⟨WatchState.succeeded, n + 1, calls + 1⟩
      else if cancelAtSleep n then
        ⟨WatchState.cancelled, n + 1, calls + 1⟩
      else
        watchLoop probe onSuccessRaises cancelAtSleep fuel (n + 1) (calls + 1)
    | _ =>
      if cancelAtSleep n then
        ⟨WatchState.cancelled, n + 1, calls⟩
      else
        watchLoop probe onSuccessRaises cancelAtSleep fuel (n + 1) calls

/-! ### Chat handler (`SiteWatcher.handle_get_site` in `src/snitchbot/__main__.py`) -/

/-- The reply `handle_get_site` sends (which message and conversation state
results from each branch). -/
inductive GetSiteReply : Type where
  | alreadyWatched
  | invalidUrl
  | unknownDomain
  | watching
deriving DecidableEq, Repr

/-- `SiteWatcher.handle_get_site`: `url = update.message.text.strip()`; if
`self.tasks.has_task(user, url)` reply "already watched"; else gate on
`is_valid_url(url)` and `await domain_exists(url)` (imported from
`snitchbot.lib.network` but not defined there — passed here as boolean
parameters, since the handler only branches on their results); else
`self.tasks.submit(user, url, task)`. -/
def handle_get_site (w : World String) (user text : String)
    (is_valid_url : String → Bool) (domain_exists : String → Bool) :
    World String × GetSiteReply :=
  let url := pyStrip text
  let p := has_task w user url
  if p.2 then (p.1, GetSiteReply.alreadyWatched)
  else if !(is_valid_url url) then (p.1, GetSiteReply.invalidUrl)
  else if !(domain_exists url) then (p.1, GetSiteReply.unknownDomain)
  else ((submit p.1 user url).1, GetSiteReply.watching)

/-- The normalization §3 of the spec describes for a watch key, built from
the spec side for comparison: "the address being watched, normalized
(scheme ensured, lower-cased/trimmed) before becoming a key". -/
def specNormalizeKey (raw : String) (default_scheme : String := "https") : String :=
  pyLower (ensure_scheme (pyStrip raw) default_scheme)

/-! ### Concrete states used to exercise the theorems -/

/-- A registry in which alice already watches one site (task id 0). -/
def exW1 : World String :=
  ⟨[("alice", [("https://example.com", 0)])], 1, [(0, TaskStatus.running)]⟩

/-- A registry in which only bob has a watch (task id 5); alice is unknown. -/
def exW2 : World String :=
  ⟨[("bob", [("x", 5)])], 6, [(5, TaskStatus.running)]⟩

/-- The registry right after `TaskManager.__init__`. -/
def emptyW : World String := ⟨[], 0, []⟩

/-! ### Dictionary lemmas -/

theorem dictGet_insert_self {α β : Type} [DecidableEq α] :
    ∀ (l : List (α × β)) (a : α) (v : β), dictGet (dictInsert l a v) a = some v
  | [], a, v => by simp [dictInsert, dictGet]
  | (b, w) :: rest, a, v => by
    by_cases h : b = a
    · simp [dictInsert, dictGet, h]
    · simp [dictInsert, dictGet, h, dictGet_insert_self rest a v]

theorem dictGet_insert_ne {α β : Type} [DecidableEq α] :
    ∀ (l : List (α × β)) (a x : α) (v : β), x ≠ a →
      dictGet (dictInsert l a v) x = dictGet l x
  | [], a, x, v, h => by simp [dictInsert, dictGet, Ne.symm h]
  | (b, w) :: rest, a, x, v, h => by
    by_cases hb : b = a
    · subst hb
      simp [dictInsert, dictGet, Ne.symm h]
    · simp [dictInsert, dictGet, hb, dictGet_insert_ne rest a x v h]

theorem dictPop_cons_self {α β : Type} [DecidableEq α] (b a : α) (w : β)
    (rest : List (α × β)) (h : b = a) :
    dictPop ((b, w) :: rest) a = dictPop rest a := by
  simp [dictPop, List.filter_cons, h]

theorem dictPop_cons_ne {α β : Type} [DecidableEq α] (b a : α) (w : β)
    (rest : List (α × β)) (h : ¬b = a) :
    dictPop ((b, w) :: rest) a = (b, w) :: dictPop rest a := by
  simp [dictPop, List.filter_cons, h]

theorem dictGet_pop_self {α β : Type} [DecidableEq α] :
    ∀ (l : List (α × β)) (a : α), dictGet (dictPop l a) a = none
  | [], _ => rfl
  | (b, w) :: rest, a => by
    by_cases h : b = a
    · rw [dictPop_cons_self b a w rest h, dictGet_pop_self rest a]
    · rw [dictPop_cons_ne b a w rest h]
      simp [dictGet, h, dictGet_pop_self rest a]

theorem dictGet_pop_ne {α β : Type} [DecidableEq α] :
    ∀ (l : List (α × β)) (a x : α), x ≠ a →
      dictGet (dictPop l a) x = dictGet l x
  | [], _, _, _ => rfl
  | (b, w) :: rest, a, x, h => by
    by_cases hb : b = a
    · rw [dictPop_cons_self b a w rest hb, dictGet_pop_ne rest a x h]
      subst hb
      simp [dictGet, Ne.symm h]
    · rw [dictPop_cons_ne b a w rest hb]
      simp [dictGet, dictGet_pop_ne rest a x h]

theorem dictGet_all_none_nil {α β : Type} [DecidableEq α] :
    ∀ (l : List (α × β)), (∀ a, dictGet l a = none) → l = []
  | [], _ => rfl
  | (b, w) :: _, h => by
    have hb := h b
    simp [dictGet] at hb

/-! ### Registry lemmas -/

theorem lookupTask_def {Key : Type} [DecidableEq Key] (w : World Key) (u : String) (k : Key) :
    lookupTask w u k = (dictGet w.tasks u).bind (fun inner => dictGet inner k) := by
  cases h : dictGet w.tasks u <;> simp [lookupTask, h]

theorem user_tasks_fst_tasks {Key : Type} [DecidableEq Key] (w : World Key) (u : String) :
    dictGet (user_tasks w u).1.tasks u = some (user_tasks w u).2 := by
  cases h : dictGet w.tasks u <;> simp [user_tasks, h, dictGet_insert_self]

theorem user_tasks_fst_tasks_ne {Key : Type} [DecidableEq Key] (w : World Key) (u u2 : String)
    (h : u2 ≠ u) : dictGet (user_tasks w u).1.tasks u2 = dictGet w.tasks u2 := by
  cases hg : dictGet w.tasks u <;> simp [user_tasks, hg, dictGet_insert_ne _ _ _ _ h]

theorem user_tasks_snd {Key : Type} [DecidableEq Key] (w : World Key) (u : String) (k : Key) :
    dictGet (user_tasks w u).2 k = lookupTask w u k := by
  cases h : dictGet w.tasks u <;> simp [user_tasks, lookupTask, h, dictGet]

theorem user_tasks_status {Key : Type} [DecidableEq Key] (w : World Key) (u : String) :
    (user_tasks w u).1.status = w.status := by
  cases h : dictGet w.tasks u <;> simp [user_tasks, h]

theorem user_tasks_nextId {Key : Type} [DecidableEq Key] (w : World Key) (u : String) :
    (user_tasks w u).1.nextId = w.nextId := by
  cases h : dictGet w.tasks u <;> simp [user_tasks, h]

theorem user_tasks_lookup {Key : Type} [DecidableEq Key] (w : World Key) (u u2 : String) (k2 : Key) :
    lookupTask (user_tasks w u).1 u2 k2 = lookupTask w u2 k2 := by
  by_cases h : u2 = u
  · subst h
    rw [lookupTask_def, user_tasks_fst_tasks]
    simp [user_tasks_snd]
  · rw [lookupTask_def, user_tasks_fst_tasks_ne w u u2 h, lookupTask_def]

theorem has_task_snd {Key : Type} [DecidableEq Key] (w : World Key) (u : String) (k : Key) :
    (has_task w u k).2 = (lookupTask w u k).isSome := by
  simp [has_task, user_tasks_snd]

theorem has_task_fst {Key : Type} [DecidableEq Key] (w : World Key) (u : String) (k : Key) :
    (has_task w u k).1 = (user_tasks w u).1 := rfl

theorem clear_task_lookup_self {Key : Type} [DecidableEq Key] (w : World Key) (u : String)
    (k : Key) : lookupTask (clear_task w u k) u k = none := by
  rw [lookupTask_def]
  simp only [clear_task, dictGet_insert_self]
  simp [dictGet_pop_self]

theorem clear_task_lookup_frame {Key : Type} [DecidableEq Key] (w : World Key) (u u2 : String)
    (k k2 : Key) (h : ¬(u2 = u ∧ k2 = k)) :
    lookupTask (clear_task w u k) u2 k2 = lookupTask w u2 k2 := by
  by_cases hu : u2 = u
  · subst hu
    have hk : k2 ≠ k := fun hk => h ⟨rfl, hk⟩
    rw [lookupTask_def]
    simp only [clear_task, dictGet_insert_self]
    simp [dictGet_pop_ne _ _ _ hk, user_tasks_snd]
  · rw [lookupTask_def]
    simp only [clear_task]
    rw [dictGet_insert_ne _ _ _ _ hu, user_tasks_fst_tasks_ne w u u2 hu, ← lookupTask_def]

theorem clear_task_status {Key : Type} [DecidableEq Key] (w : World Key) (u : String) (k : Key) :
    (clear_task w u k).status = w.status := by
  simp [clear_task, user_tasks_status]

theorem clear_task_nextId {Key : Type} [DecidableEq Key] (w : World Key) (u : String) (k : Key) :
    (clear_task w u k).nextId = w.nextId := by
  simp [clear_task, user_tasks_nextId]

theorem submit_snd {Key : Type} [DecidableEq Key] (w : World Key) (u : String) (k : Key) :
    (submit w u k).2 = w.nextId := by
  simp [submit, user_tasks_nextId]

theorem submit_lookup_self {Key : Type} [DecidableEq Key] (w : World Key) (u : String) (k : Key) :
    lookupTask (submit w u k).1 u k = some w.nextId := by
  rw [lookupTask_def]
  simp only [submit, dictGet_insert_self]
  simp [dictGet_insert_self, user_tasks_nextId]

theorem submit_lookup_frame {Key : Type} [DecidableEq Key] (w : World Key) (u u2 : String)
    (k k2 : Key) (h : ¬(u2 = u ∧ k2 = k)) :
    lookupTask (submit w u k).1 u2 k2 = lookupTask w u2 k2 := by
  by_cases hu : u2 = u
  · subst hu
    have hk : k2 ≠ k := fun hk => h ⟨rfl, hk⟩
    rw [lookupTask_def]
    simp only [submit, dictGet_insert_self]
    simp [dictGet_insert_ne _ _ _ _ hk, user_tasks_snd]
  · rw [lookupTask_def]
    simp only [submit]
    rw [dictGet_insert_ne _ _ _ _ hu, user_tasks_fst_tasks_ne w u u2 hu, ← lookupTask_def]

theorem submit_status {Key : Type} [DecidableEq Key] (w : World Key) (u : String) (k : Key) :
    (submit w u k).1.status = dictInsert w.status w.nextId TaskStatus.running := by
  simp [submit, user_tasks_status, user_tasks_nextId]

theorem cancel_tasks {Key : Type} [DecidableEq Key] (w : World Key) (u : String) (k : Key) :
    (cancel w u k).tasks
      = dictInsert (user_tasks w u).1.tasks u (dictPop (user_tasks w u).2 k) := by
  cases h : dictGet (user_tasks w u).2 k <;> simp [cancel, h]

theorem cancel_lookup_self {Key : Type} [DecidableEq Key] (w : World Key) (u : String) (k : Key) :
    lookupTask (cancel w u k) u k = none := by
  rw [lookupTask_def, cancel_tasks]
  simp [dictGet_insert_self, dictGet_pop_self]

theorem cancel_lookup_frame {Key : Type} [DecidableEq Key] (w : World Key) (u u2 : String)
    (k k2 : Key) (h : ¬(u2 = u ∧ k2 = k)) :
    lookupTask (cancel w u k) u2 k2 = lookupTask w u2 k2 := by
  by_cases hu : u2 = u
  · subst hu
    have hk : k2 ≠ k := fun hk => h ⟨rfl, hk⟩
    rw [lookupTask_def, cancel_tasks]
    simp [dictGet_insert_self, dictGet_pop_ne _ _ _ hk, user_tasks_snd]
  · rw [lookupTask_def, cancel_tasks]
    rw [dictGet_insert_ne _ _ _ _ hu, user_tasks_fst_tasks_ne w u u2 hu, ← lookupTask_def]

theorem cancel_status_of_absent {Key : Type} [DecidableEq Key] (w : World Key) (u : String)
    (k : Key) (h : lookupTask w u k = none) : (cancel w u k).status = w.status := by
  have hg : dictGet (user_tasks w u).2 k = none := by rw [user_tasks_snd, h]
  simp [cancel, hg, user_tasks_status]

theorem cancel_nextId {Key : Type} [DecidableEq Key] (w : World Key) (u : String) (k : Key) :
    (cancel w u k).nextId = w.nextId := by
  cases h : dictGet (user_tasks w u).2 k <;> simp [cancel, h, user_tasks_nextId]

theorem lookupTask_set_status {Key : Type} [DecidableEq Key] (w : World Key) (u : String)
    (k : Key) (st : List (Nat × TaskStatus)) :
    lookupTask { w with status := st } u k = lookupTask w u k := rfl

theorem finish_lookup_self {Key : Type} [DecidableEq Key] (w : World Key) (u : String) (k : Key)
    (tid : Nat) (s : TaskStatus) : lookupTask (finish w u k tid s) u k = none :=
  clear_task_lookup_self _ u k

theorem finish_lookup_frame {Key : Type} [DecidableEq Key] (w : World Key) (u u2 : String)
    (k k2 : Key) (tid : Nat) (s : TaskStatus) (h : ¬(u2 = u ∧ k2 = k)) :
    lookupTask (finish w u k tid s) u2 k2 = lookupTask w u2 k2 := by
  rw [finish, clear_task_lookup_frame _ _ _ _ _ h, lookupTask_set_status]

/-! ### Polling-loop lemmas -/

theorem watchLoop_fail_step (probe : Nat → ProbeResult) (r : Bool) (c : Nat → Bool)
    (fuel n calls : Nat) (hp : probe n ≠ ProbeResult.ok) (hc : c n = false) :
    watchLoop probe r c (fuel + 1) n calls = watchLoop probe r c fuel (n + 1) calls := by
  cases h : probe n with
  | ok => exact absurd h hp
  | notOk => simp [watchLoop, h, hc]
  | err => simp [watchLoop, h, hc]

theorem watchLoop_cancel_step (probe : Nat → ProbeResult) (r : Bool) (c : Nat → Bool)
    (fuel n calls : Nat) (hp : probe n ≠ ProbeResult.ok) (hc : c n = true) :
    watchLoop probe r c (fuel + 1) n calls = ⟨WatchState.cancelled, n + 1, calls⟩ := by
  cases h : probe n with
  | ok => exact absurd h hp
  | notOk => simp [watchLoop, h, hc]
  | err => simp [watchLoop, h, hc]

theorem watchLoop_ok_first (probe : Nat → ProbeResult) (c : Nat → Bool) (fuel n : Nat)
    (hp : probe n = ProbeResult.ok) :
    watchLoop probe false c (fuel + 1) n 0 = ⟨WatchState.succeeded, n + 1, 1⟩ := by
  simp [watchLoop, hp]

theorem watchLoop_succeeds_general (probe : Nat → ProbeResult) :
    ∀ (N n fuel : Nat), (∀ i, i < N → probe (n + i) ≠ ProbeResult.ok) →
      probe (n + N) = ProbeResult.ok → N < fuel →
      watchLoop probe false (fun _ => false) fuel n 0
        = ⟨WatchState.succeeded, n + N + 1, 1⟩ := by
  intro N
  induction N with
  | zero =>
    intro n fuel _ hok hfuel
    obtain ⟨f, rfl⟩ : ∃ f, fuel = f + 1 := ⟨fuel - 1, by omega⟩
    simpa using watchLoop_ok_first probe (fun _ => false) f n (by simpa using hok)
  | succ N ih =>
    intro n fuel hfail hok hfuel
    obtain ⟨f, rfl⟩ : ∃ f, fuel = f + 1 := ⟨fuel - 1, by omega⟩
    rw [watchLoop_fail_step probe false (fun _ => false) f n 0
      (by simpa using hfail 0 (Nat.succ_pos N)) rfl]
    have hshift : ∀ i, i < N → probe (n + 1 + i) ≠ ProbeResult.ok := by
      intro i hi
      have := hfail (i + 1) (by omega)
      simpa [Nat.add_assoc, Nat.add_comm 1 i] using this
    have hok2 : probe (n + 1 + N) = ProbeResult.ok := by
      have : n + 1 + N = n + (N + 1) := by omega
      rw [this]
      exact hok
    have := ih (n + 1) f hshift hok2 (by omega)
    rw [this]
    have : n + 1 + N + 1 = n + (N + 1) + 1 := by omega
    rw [this]

theorem watchLoop_pending_general (probe : Nat → ProbeResult) (r : Bool)
    (h : ∀ i, probe i ≠ ProbeResult.ok) :
    ∀ (fuel n calls : Nat),
      watchLoop probe r (fun _ => false) fuel n calls
        = ⟨WatchState.pending, n + fuel, calls⟩ := by
  intro fuel
  induction fuel with
  | zero => intro n calls; simp [watchLoop]
  | succ fuel ih =>
    intro n calls
    rw [watchLoop_fail_step probe r (fun _ => false) fuel n calls (h n) rfl, ih (n + 1) calls]
    have : n + 1 + fuel = n + (fuel + 1) := by omega
    rw [this]

theorem watchLoop_cancel_general (probe : Nat → ProbeResult) (c : Nat → Bool) :
    ∀ (N n fuel calls : Nat), (∀ i, i ≤ N → probe (n + i) ≠ ProbeResult.ok) →
      (∀ j, j < N → c (n + j) = false) → c (n + N) = true → N < fuel →
      watchLoop probe false c fuel n calls = ⟨WatchState.cancelled, n + N + 1, calls⟩ := by
  intro N
  induction N with
  | zero =>
    intro n fuel calls hfail _ hcN hfuel
    obtain ⟨f, rfl⟩ : ∃ f, fuel = f + 1 := ⟨fuel - 1, by omega⟩
    simpa using watchLoop_cancel_step probe false c f n calls
      (by simpa using hfail 0 (Nat.le_refl 0)) (by simpa using hcN)
  | succ N ih =>
    intro n fuel calls hfail hcstay hcN hfuel
    obtain ⟨f, rfl⟩ : ∃ f, fuel = f + 1 := ⟨fuel - 1, by omega⟩
    rw [watchLoop_fail_step probe false c f n calls
      (by simpa using hfail 0 (Nat.zero_le _)) (by simpa using hcstay 0 (Nat.succ_pos N))]
    have hfail2 : ∀ i, i ≤ N → probe (n + 1 + i) ≠ ProbeResult.ok := by
      intro i hi
      have := hfail (i + 1) (by omega)
      simpa [Nat.add_assoc, Nat.add_comm 1 i] using this
    have hcstay2 : ∀ j, j < N → c (n + 1 + j) = false := by
      intro j hj
      have := hcstay (j + 1) (by omega)
      simpa [Nat.add_assoc, Nat.add_comm 1 j] using this
    have hcN2 : c (n + 1 + N) = true := by
      have : n + 1 + N = n + (N + 1) := by omega
      rw [this]
      exact hcN
    rw [ih (n + 1) f calls hfail2 hcstay2 hcN2 (by omega)]
    have : n + 1 + N + 1 = n + (N + 1) + 1 := by omega
    rw [this]

theorem watchLoop_raises_general (probe : Nat → ProbeResult) :
    ∀ (fuel n calls : Nat),
      (watchLoop probe true (fun _ => false) fuel n calls).state = WatchState.pending
      ∧ (watchLoop probe true (fun _ => false) fuel n calls).probes = n + fuel := by
  intro fuel
  induction fuel with
  | zero => intro n calls; simp [watchLoop]
  | succ fuel ih =>
    intro n calls
    cases h : probe n with
    | ok =>
      have step : watchLoop probe true (fun _ => false) (fuel + 1) n calls
          = watchLoop probe true (fun _ => false) fuel (n + 1) (calls + 1) := by
        simp [watchLoop, h]
      rw [step]
      refine ⟨(ih (n + 1) (calls + 1)).1, ?_⟩
      rw [(ih (n + 1) (calls + 1)).2]
      omega
    | notOk =>
      rw [watchLoop_fail_step probe true (fun _ => false) fuel n calls (by simp [h]) rfl]
      refine ⟨(ih (n + 1) calls).1, ?_⟩
      rw [(ih (n + 1) calls).2]
      omega
    | err =>
      rw [watchLoop_fail_step probe true (fun _ => false) fuel n calls (by simp [h]) rfl]
      refine ⟨(ih (n + 1) calls).1, ?_⟩
      rw [(ih (n + 1) calls).2]
      omega

/-! ### URL lemmas -/

theorem takeUntilColon_append :
    ∀ (xs rest : List Char), (∀ c ∈ xs, c ≠ ':') →
      takeUntilColon (xs ++ ':' :: rest) = some xs
  | [], rest, _ => by simp [takeUntilColon]
  | x :: xs, rest, h => by
    have hx : x ≠ ':' := h x (List.mem_cons_self x xs)
    simp [takeUntilColon, hx,
      takeUntilColon_append xs rest (fun c hc => h c (List.mem_cons_of_mem x hc))]

theorem no_colon_of_valid_scheme (s : String) (h : isValidSchemeName s = true) :
    ∀ c ∈ s.toList, c ≠ ':' := by
  intro c hc
  rw [isValidSchemeName] at h
  cases hl : s.toList with
  | nil => rw [hl] at hc; exact absurd hc (List.not_mem_nil c)
  | cons d ds =>
    rw [hl] at h hc
    simp only [Bool.and_eq_true] at h
    rcases List.mem_cons.mp hc with rfl | hmem
    · intro hcolon
      rw [hcolon] at h
      exact absurd h.1 (by decide)
    · intro hcolon
      have := (List.all_eq_true.mp h.2) c hmem
      rw [hcolon] at this
      exact absurd this (by decide)

theorem hasScheme_prepend (s u : String) (h : isValidSchemeName s = true) :
    hasScheme (s ++ "://" ++ u).toList = true := by
  have hlist : (s ++ "://" ++ u).toList = s.toList ++ ':' :: ('/' :: '/' :: u.toList) := by
    simp [String.toList, String.data_append]
  rw [hasScheme, hlist, takeUntilColon_append s.toList _ (no_colon_of_valid_scheme s h)]
  rw [isValidSchemeName] at h
  cases hl : s.toList with
  | nil => rw [hl] at h; exact absurd h (by simp)
  | cons d ds => rw [hl] at h; simpa using h

/-! ### Claim theorems -/

/-- C5: for every user U and key K with no recorded entry (including users
never seen before), `cancel(U,K)` is a no-op on the set of recorded tasks
and never raises: no task entry changes, no task is cancelled (all statuses
unchanged), and no entry of any other (user, key) pair changes. (`cancel` is
a total function of the model, so no exception path exists.) -/
theorem cancel_absent_noop {Key : Type} [DecidableEq Key] (w : World Key) (u : String) (k : Key)
    (h : lookupTask w u k = none) :
    (∀ u2 k2, lookupTask (cancel w u k) u2 k2 = lookupTask w u2 k2)
    ∧ (∀ t, taskStatus (cancel w u k) t = taskStatus w t)
    ∧ (cancel w u k).nextId = w.nextId := by
  refine ⟨?_, ?_, cancel_nextId w u k⟩
  · intro u2 k2
    by_cases hq : u2 = u ∧ k2 = k
    · obtain ⟨rfl, rfl⟩ := hq
      rw [cancel_lookup_self, h]
    · exact cancel_lookup_frame w u u2 k k2 hq
  · intro t
    rw [taskStatus, taskStatus, cancel_status_of_absent w u k h]

/-- Witness for C5 at a concrete state: alice has no task under "nope", and
cancelling it leaves her recorded task and its status untouched. -/
theorem cancel_absent_noop_witness :
    lookupTask (cancel exW1 "alice" "nope") "alice" "https://example.com"
      = lookupTask exW1 "alice" "https://example.com"
    ∧ taskStatus (cancel exW1 "alice" "nope") 0 = taskStatus exW1 0 :=
  ⟨(cancel_absent_noop exW1 "alice" "nope" (by decide)).1 "alice" "https://example.com",
   (cancel_absent_noop exW1 "alice" "nope" (by decide)).2.1 0⟩

/-- C6: for every user with no recorded watches (including users on which no
operation was ever performed), `get_tasks` returns the empty key list and
never raises (it is a total function of the model). -/
theorem get_tasks_no_watches {Key : Type} [DecidableEq Key] (w : World Key) (u : String)
    (h : ∀ k, lookupTask w u k = none) : (get_tasks w u).2 = [] := by
  have hall : ∀ k, dictGet (user_tasks w u).2 k = none := fun k => by rw [user_tasks_snd, h]
  show (user_tasks w u).2.map Prod.fst = []
  rw [dictGet_all_none_nil _ hall]
  rfl

/-- Witness for C6: a never-seen user of the freshly initialised registry. -/
theorem get_tasks_no_watches_witness : (get_tasks emptyW "alice").2 = [] :=
  get_tasks_no_watches emptyW "alice" (fun _ => rfl)

/-- C9: every registry operation, including the read-only queries and the
no-op cancel on an absent key, inserts an empty inner mapping for a
previously unknown user; the query results are nevertheless as if the user
were absent, other users' outer entries are untouched, and (for the
queries) statuses and the id counter are unchanged. -/
theorem registry_ops_insert_empty_user {Key : Type} [DecidableEq Key] (w : World Key)
    (u : String) (k : Key) (h : dictGet w.tasks u = none) :
    ((get_tasks w u).2 = []
      ∧ dictGet (get_tasks w u).1.tasks u = some []
      ∧ (∀ u2, u2 ≠ u → dictGet (get_tasks w u).1.tasks u2 = dictGet w.tasks u2)
      ∧ (get_tasks w u).1.status = w.status
      ∧ (get_tasks w u).1.nextId = w.nextId)
    ∧ ((has_task w u k).2 = false
      ∧ dictGet (has_task w u k).1.tasks u = some []
      ∧ (∀ u2, u2 ≠ u → dictGet (has_task w u k).1.tasks u2 = dictGet w.tasks u2))
    ∧ ((has_tasks w u).2 = false
      ∧ dictGet (has_tasks w u).1.tasks u = some []
      ∧ (∀ u2, u2 ≠ u → dictGet (has_tasks w u).1.tasks u2 = dictGet w.tasks u2))
    ∧ (dictGet (cancel w u k).tasks u = some []
      ∧ (∀ u2, u2 ≠ u → dictGet (cancel w u k).tasks u2 = dictGet w.tasks u2)
      ∧ (cancel w u k).status = w.status) := by
  have h2 : (user_tasks w u).2 = [] := by simp [user_tasks, h]
  have hts : dictGet (user_tasks w u).1.tasks u = some [] := by
    rw [user_tasks_fst_tasks, h2]
  have hlk : lookupTask w u k = none := by rw [lookupTask_def, h]; rfl
  refine ⟨⟨?_, hts, fun u2 hu2 => user_tasks_fst_tasks_ne w u u2 hu2,
      user_tasks_status w u, user_tasks_nextId w u⟩,
    ⟨?_, hts, fun u2 hu2 => user_tasks_fst_tasks_ne w u u2 hu2⟩,
    ⟨?_, hts, fun u2 hu2 => user_tasks_fst_tasks_ne w u u2 hu2⟩,
    ⟨?_, ?_, cancel_status_of_absent w u k hlk⟩⟩
  · show (user_tasks w u).2.map Prod.fst = []
    rw [h2]
    rfl
  · show (dictGet (user_tasks w u).2 k).isSome = false
    rw [h2]
    rfl
  · show decide (0 < (user_tasks w u).2.length) = false
    rw [h2]
    rfl
  · rw [cancel_tasks, dictGet_insert_self, h2]
    rfl
  · intro u2 hu2
    rw [cancel_tasks, dictGet_insert_ne _ _ _ _ hu2, user_tasks_fst_tasks_ne w u u2 hu2]

/-- Witness for C9: alice is unknown to a registry that only knows bob;
querying and cancelling for alice answers as if she were absent, records an
empty inner mapping for her, and leaves bob's outer entry unchanged. -/
theorem registry_ops_insert_empty_user_witness :
    (get_tasks exW2 "alice").2 = []
    ∧ dictGet (get_tasks exW2 "alice").1.tasks "alice" = some []
    ∧ dictGet (cancel exW2 "alice" "x").tasks "bob" = dictGet exW2.tasks "bob" :=
  ⟨(registry_ops_insert_empty_user exW2 "alice" "x" (by decide)).1.1,
   (registry_ops_insert_empty_user exW2 "alice" "x" (by decide)).1.2.1,
   (registry_ops_insert_empty_user exW2 "alice" "x" (by decide)).2.2.2.2.1 "bob" (by decide)⟩

/-- C10 counterexample: `ensure_scheme` is not idempotent for every default
scheme. With default scheme "1", `urlsplit` does not recognise the
prepended "1://" as a scheme (a scheme must start with a letter), so a
second application prepends again. -/
theorem ensure_scheme_not_idempotent :
    ensure_scheme (ensure_scheme "x" "1") "1" ≠ ensure_scheme "x" "1" := by decide

/-- C10 (amended): for every url and every default scheme that is a
syntactically valid scheme name (nonempty, ASCII-letter start, scheme
characters only — in particular the "https" the source uses), applying
`ensure_scheme` a second time never changes the result of the first. -/
theorem ensure_scheme_idempotent (url s : String) (h : isValidSchemeName s = true) :
    ensure_scheme (ensure_scheme url s) s = ensure_scheme url s := by
  cases hu : hasScheme url.toList with
  | true =>
    have h1 : ensure_scheme url s = url := by
      simp only [ensure_scheme, hu]
      rfl
    rw [h1]
    exact h1
  | false =>
    have h1 : ensure_scheme url s = s ++ "://" ++ url := by
      simp only [ensure_scheme, hu]
      rfl
    rw [h1]
    simp only [ensure_scheme, hasScheme_prepend s url h]
    rfl

/-- Witness for C10 (amended) at the source's default scheme. -/
theorem ensure_scheme_idempotent_witness :
    ensure_scheme (ensure_scheme "example.com" "https") "https"
      = ensure_scheme "example.com" "https" :=
  ensure_scheme_idempotent "example.com" "https" (by decide)

/-- C1 counterexample: at a state where alice already has a task (handle 0)
recorded under the key, `submit` raises no `DuplicateWatch` error (it is a
total function with no error result) and does not leave the existing handle
in place: the entry afterwards holds the freshly created task 1, while the
displaced task 0 is still running with no handle in the registry. -/
theorem submit_duplicate_not_rejected :
    lookupTask exW1 "alice" "https://example.com" = some 0
    ∧ lookupTask (submit exW1 "alice" "https://example.com").1 "alice" "https://example.com"
        = some 1
    ∧ taskStatus (submit exW1 "alice" "https://example.com").1 0 = some TaskStatus.running :=
  ⟨by decide, by decide, by decide⟩

/-- C1 (amended): `submit` on an existing (U,K) does not fail: it silently
replaces the recorded handle with the newly created task's handle, leaving
the previous task un-cancelled (its status unchanged) with its handle
dropped from the registry; entries of other (user, key) pairs are
unchanged. -/
theorem submit_duplicate_overwrites {Key : Type} [DecidableEq Key] (w : World Key)
    (u : String) (k : Key) (t : Nat) (h : lookupTask w u k = some t) (ht : t ≠ w.nextId) :
    (submit w u k).2 = w.nextId
    ∧ lookupTask (submit w u k).1 u k = some w.nextId
    ∧ taskStatus (submit w u k).1 t = taskStatus w t
    ∧ (∀ u2 k2, ¬(u2 = u ∧ k2 = k) →
        lookupTask (submit w u k).1 u2 k2 = lookupTask w u2 k2) := by
  refine ⟨submit_snd w u k, submit_lookup_self w u k, ?_,
    fun u2 k2 hq => submit_lookup_frame w u u2 k k2 hq⟩
  rw [taskStatus, taskStatus, submit_status, dictGet_insert_ne _ _ _ _ ht]

/-- Witness for C1 (amended) at the concrete duplicate-submit state. -/
theorem submit_duplicate_overwrites_witness :
    lookupTask (submit exW1 "alice" "https://example.com").1 "alice" "https://example.com"
      = some exW1.nextId
    ∧ taskStatus (submit exW1 "alice" "https://example.com").1 0 = taskStatus exW1 0 :=
  ⟨(submit_duplicate_overwrites exW1 "alice" "https://example.com" 0
      (by decide) (by decide)).2.1,
   (submit_duplicate_overwrites exW1 "alice" "https://example.com" 0
      (by decide) (by decide)).2.2.1⟩

/-- C2: for a fresh (U,K), immediately after `submit` the entry is present
(`has_task` true); it stays present under every query and under removals of
other (user, key) pairs; once the submitted work reaches a terminal status
its done callback removes it (`has_task` false), as does `cancel`; and the
removal happens exactly once — after `cancel` has already removed the
entry, the completion hook of the cancelled task changes no entry at all. -/
theorem task_lifecycle {Key : Type} [DecidableEq Key] (w : World Key) (u : String) (k : Key)
    (s : TaskStatus) (h : lookupTask w u k = none) :
    (has_task (submit w u k).1 u k).2 = true
    ∧ (∀ u2, lookupTask (get_tasks (submit w u k).1 u2).1 u k = some (submit w u k).2)
    ∧ (∀ u2 k2, lookupTask (has_task (submit w u k).1 u2 k2).1 u k = some (submit w u k).2)
    ∧ (∀ u2, lookupTask (has_tasks (submit w u k).1 u2).1 u k = some (submit w u k).2)
    ∧ (∀ u2 k2, ¬(u2 = u ∧ k2 = k) →
        lookupTask (clear_task (submit w u k).1 u2 k2) u k = some (submit w u k).2)
    ∧ (has_task (finish (submit w u k).1 u k (submit w u k).2 s) u k).2 = false
    ∧ (has_task (cancel (submit w u k).1 u k) u k).2 = false
    ∧ (∀ u2 k2,
        lookupTask (finish (cancel (submit w u k).1 u k) u k (submit w u k).2
          TaskStatus.cancelled) u2 k2
        = lookupTask (cancel (submit w u k).1 u k) u2 k2) := by
  have hsub : lookupTask (submit w u k).1 u k = some (submit w u k).2 := by
    rw [submit_lookup_self, submit_snd]
  refine ⟨?_, ?_, ?_, ?_, ?_, ?_, ?_, ?_⟩
  · rw [has_task_snd, hsub]
    rfl
  · intro u2
    show lookupTask (user_tasks (submit w u k).1 u2).1 u k = some (submit w u k).2
    rw [user_tasks_lookup, hsub]
  · intro u2 k2
    show lookupTask (user_tasks (submit w u k).1 u2).1 u k = some (submit w u k).2
    rw [user_tasks_lookup, hsub]
  · intro u2
    show lookupTask (user_tasks (submit w u k).1 u2).1 u k = some (submit w u k).2
    rw [user_tasks_lookup, hsub]
  · intro u2 k2 hq
    have hq2 : ¬(u = u2 ∧ k = k2) := fun hp => hq ⟨hp.1.symm, hp.2.symm⟩
    rw [clear_task_lookup_frame _ _ _ _ _ hq2, hsub]
  · rw [has_task_snd, finish_lookup_self]
    rfl
  · rw [has_task_snd, cancel_lookup_self]
    rfl
  · intro u2 k2
    by_cases hq : u2 = u ∧ k2 = k
    · obtain ⟨rfl, rfl⟩ := hq
      rw [finish_lookup_self, cancel_lookup_self]
    · rw [finish_lookup_frame _ _ _ _ _ _ _ hq]

/-- Witness for C2: submit a fresh watch for alice, see it present, see the
completion hook remove it, and see the hook change nothing after a cancel
already removed the entry. -/
theorem task_lifecycle_witness :
    (has_task (submit emptyW "alice" "site").1 "alice" "site").2 = true
    ∧ (has_task (finish (submit emptyW "alice" "site").1 "alice" "site"
        (submit emptyW "alice" "site").2 TaskStatus.succeeded) "alice" "site").2 = false
    ∧ lookupTask (finish (cancel (submit emptyW "alice" "site").1 "alice" "site")
          "alice" "site" (submit emptyW "alice" "site").2 TaskStatus.cancelled)
          "alice" "site"
      = lookupTask (cancel (submit emptyW "alice" "site").1 "alice" "site") "alice" "site" :=
  ⟨(task_lifecycle emptyW "alice" "site" TaskStatus.succeeded (by decide)).1,
   (task_lifecycle emptyW "alice" "site" TaskStatus.succeeded (by decide)).2.2.2.2.2.1,
   (task_lifecycle emptyW "alice" "site" TaskStatus.succeeded
      (by decide)).2.2.2.2.2.2.2 "alice" "site"⟩

/-- C7 counterexample: for the accepted raw address "Example.COM" (with the
validation collaborators accepting it) the watch is recorded under the raw
key "Example.COM" itself, not under the normalized form the claim names,
which would be "https://example.com". -/
theorem watch_key_not_normalized :
    specNormalizeKey "Example.COM" = "https://example.com"
    ∧ lookupTask (handle_get_site emptyW "alice" "Example.COM"
        (fun _ => true) (fun _ => true)).1 "alice" "Example.COM" = some 0
    ∧ lookupTask (handle_get_site emptyW "alice" "Example.COM"
        (fun _ => true) (fun _ => true)).1 "alice" "https://example.com" = none :=
  ⟨by decide, by decide, by decide⟩

/-- C7 (amended): the key under which a watch is recorded is the raw message
text with surrounding whitespace stripped (`text.strip()`), and nothing
else: no lower-casing and no scheme defaulting is applied before it becomes
the (user, key) registry key; no other key gains an entry. -/
theorem watch_key_is_stripped_raw (w : World String) (user text : String)
    (is_valid_url domain_exists : String → Bool)
    (h0 : lookupTask w user (pyStrip text) = none)
    (h1 : is_valid_url (pyStrip text) = true) (h2 : domain_exists (pyStrip text) = true) :
    (handle_get_site w user text is_valid_url domain_exists).2 = GetSiteReply.watching
    ∧ lookupTask (handle_get_site w user text is_valid_url domain_exists).1 user
        (pyStrip text) = some w.nextId
    ∧ (∀ k2, k2 ≠ pyStrip text →
        lookupTask (handle_get_site w user text is_valid_url domain_exists).1 user k2
          = lookupTask w user k2) := by
  have hht : (has_task w user (pyStrip text)).2 = false := by
    rw [has_task_snd, h0]
    rfl
  have hw : handle_get_site w user text is_valid_url domain_exists
      = ((submit (has_task w user (pyStrip text)).1 user (pyStrip text)).1,
         GetSiteReply.watching) := by
    simp only [handle_get_site, hht, h1, h2]
    rfl
  refine ⟨by rw [hw], ?_, ?_⟩
  · rw [hw]
    show lookupTask (submit (has_task w user (pyStrip text)).1 user (pyStrip text)).1 user
      (pyStrip text) = some w.nextId
    rw [submit_lookup_self, has_task_fst, user_tasks_nextId]
  · intro k2 hk2
    rw [hw]
    show lookupTask (submit (has_task w user (pyStrip text)).1 user (pyStrip text)).1 user k2
      = lookupTask w user k2
    rw [submit_lookup_frame _ _ _ _ _ (fun hp => hk2 hp.2), has_task_fst, user_tasks_lookup]

/-- Witness for C7 (amended): a padded raw address is recorded under its
stripped form. -/
theorem watch_key_is_stripped_raw_witness :
    (handle_get_site emptyW "alice" " example.com " (fun _ => true) (fun _ => true)).2
      = GetSiteReply.watching
    ∧ lookupTask (handle_get_site emptyW "alice" " example.com "
        (fun _ => true) (fun _ => true)).1 "alice" (pyStrip " example.com ")
      = some emptyW.nextId :=
  ⟨(watch_key_is_stripped_raw emptyW "alice" " example.com "
      (fun _ => true) (fun _ => true) (by decide) rfl rfl).1,
   (watch_key_is_stripped_raw emptyW "alice" " example.com "
      (fun _ => true) (fun _ => true) (by decide) rfl rfl).2.1⟩

/-- C3: (a) if the probe fails (transport error or non-success response) on
attempts 0..N-1 and succeeds on attempt N, the watch loop terminates
`succeeded` after exactly N+1 probe attempts with the success continuation
awaited exactly once; (b) if the probe fails on every attempt, the loop
never terminates on its own: after any number of iterations it is still
`pending`, having issued one probe per iteration (re-probing after each
sleep) and never awaited the continuation. -/
theorem watch_polling_loop (probe : Nat → ProbeResult) (N fuel : Nat) :
    ((∀ i, i < N → probe i ≠ ProbeResult.ok) → probe N = ProbeResult.ok → N < fuel →
      watchLoop probe false (fun _ => false) fuel 0 0
        = ⟨WatchState.succeeded, N + 1, 1⟩)
    ∧ ((∀ i, probe i ≠ ProbeResult.ok) →
      watchLoop probe false (fun _ => false) fuel 0 0
        = ⟨WatchState.pending, fuel, 0⟩) := by
  constructor
  · intro h1 h2 h3
    have := watchLoop_succeeds_general probe N 0 fuel (by simpa using h1) (by simpa using h2) h3
    simpa using this
  · intro h1
    simpa using watchLoop_pending_general probe false h1 fuel 0 0

/-- Witness for C3: a probe refusing twice then returning a success response
succeeds after 3 attempts with one notification; an always-failing probe is
still pending after 5 iterations and 5 probes. -/
theorem watch_polling_loop_witness :
    watchLoop (fun i => if i < 2 then ProbeResult.err else ProbeResult.ok) false
      (fun _ => false) 4 0 0 = ⟨WatchState.succeeded, 3, 1⟩
    ∧ watchLoop (fun _ => ProbeResult.err) false (fun _ => false) 5 0 0
      = ⟨WatchState.pending, 5, 0⟩ :=
  ⟨(watch_polling_loop (fun i => if i < 2 then ProbeResult.err else ProbeResult.ok) 2 4).1
      (by decide) (by decide) (by decide),
   (watch_polling_loop (fun _ => ProbeResult.err) 0 5).2
      (fun _ h => ProbeResult.noConfusion h)⟩

/-- C4 counterexample: with a probe that succeeds immediately but a success
continuation that raises, the watch does not terminate `succeeded`: the
exception is caught by the loop's blanket `except Exception` handler (the
`await on_success` sits inside the `try`), so after 3 iterations the loop
is still pending and has issued 3 probes, re-awaiting the continuation each
time. -/
theorem watch_onsuccess_raises_cex :
    (watchLoop (fun _ => ProbeResult.ok) true (fun _ => false) 3 0 0).state
      ≠ WatchState.succeeded
    ∧ watchLoop (fun _ => ProbeResult.ok) true (fun _ => false) 3 0 0
      = ⟨WatchState.pending, 3, 3⟩ :=
  ⟨by decide, by decide⟩

/-- C4 (amended): if `on_success` raises when awaited, the watch does not
reach a terminal state on its own: the exception is treated like a
transient probe error and the loop keeps probing (still `pending` with one
probe per iteration after any number of iterations, absent cancellation). -/
theorem watch_onsuccess_raises_keeps_polling (probe : Nat → ProbeResult) (fuel : Nat) :
    (watchLoop probe true (fun _ => false) fuel 0 0).state = WatchState.pending
    ∧ (watchLoop probe true (fun _ => false) fuel 0 0).probes = fuel := by
  have := watchLoop_raises_general probe fuel 0 0
  simpa using this

/-- C8: if the probe has not succeeded through attempt N and cancellation is
delivered during the N-th inter-probe sleep (and not earlier), the watch
reaches `cancelled` with exactly N+1 probes issued — no probe occurs after
the cancellation is observed in the sleep, and the interrupted sleep ends
the coroutine at that very interval. -/
theorem watch_cancelled_during_sleep (probe : Nat → ProbeResult) (c : Nat → Bool)
    (N fuel : Nat) (h1 : ∀ i, i ≤ N → probe i ≠ ProbeResult.ok)
    (h2 : ∀ j, j < N → c j = false) (h3 : c N = true) (h4 : N < fuel) :
    watchLoop probe false c fuel 0 0 = ⟨WatchState.cancelled, N + 1, 0⟩ := by
  have := watchLoop_cancel_general probe c N 0 fuel 0 (by simpa using h1)
    (by simpa using h2) (by simpa using h3) h4
  simpa using this

/-- Witness for C8: cancellation delivered during the second sleep of an
always-failing watch ends it after exactly 2 probes. -/
theorem watch_cancelled_during_sleep_witness :
    watchLoop (fun _ => ProbeResult.err) false (fun j => decide (j = 1)) 3 0 0
      = ⟨WatchState.cancelled, 2, 0⟩ :=
  watch_cancelled_during_sleep (fun _ => ProbeResult.err) (fun j => decide (j = 1)) 1 3
    (by decide) (by decide) (by decide) (by decide)

end Snitchbot
